import Mathlib

/-!
Shallow embedding of the turn decision engine of the lux-ai-2021 agent
(src/src/main.rs).  The engine reads a per-turn snapshot of the world
state (map, player, units, cities) from the lux_ai library and decides
an optional action per actor.  Library types that the engine only reads
(Position, Cell, Resource, Unit, CityTile, Player) are modelled as plain
structures; library functions not in this repository are modelled from
the spec and marked as such in their doc comments.
-/

namespace Lux

/-- Direction of a single-step move; the lux_ai library also has a
center direction (no movement). -/
inductive Direction where
  | north
  | south
  | east
  | west
  | center
  deriving DecidableEq, Repr

inductive UnitType where
  | worker
  | cart
  deriving DecidableEq, Repr

inductive ResourceType where
  | wood
  | coal
  | uranium
  deriving DecidableEq, Repr

/-- Integer grid coordinate (i32 in the source). -/
structure Position where
  x : Int
  y : Int
  deriving DecidableEq, Repr

/-- Modelled from the spec: directional translation of a position by n
steps (library Position.translate; north decreases y, south increases y,
west decreases x, east increases x). -/
def Position.translate (p : Position) (d : Direction) (n : Nat) : Position :=
  match d with
  | Direction.north => ⟨p.x, p.y - n⟩
  | Direction.south => ⟨p.x, p.y + n⟩
  | Direction.east => ⟨p.x + n, p.y⟩
  | Direction.west => ⟨p.x - n, p.y⟩
  | Direction.center => ⟨p.x, p.y⟩

/-- Modelled from the spec: the squared Euclidean distance between two
positions.  The library Position.distance_to returns the Euclidean
distance as a float; squaring is a strictly monotone change of scale on
nonnegative reals, so it preserves both the strict-less comparisons and
the equalities that the nearest-target searches observe. -/
def Position.distance_to (a b : Position) : Int :=
  (a.x - b.x) ^ 2 + (a.y - b.y) ^ 2

/-- Modelled from the spec: the single cardinal step from a position
toward a target (library Position.direction_to); center when already
there. -/
def Position.direction_to (a b : Position) : Direction :=
  if a.x < b.x then Direction.east
  else if b.x < a.x then Direction.west
  else if a.y < b.y then Direction.south
  else if b.y < a.y then Direction.north
  else Direction.center

/-- A (type, amount) pair on a cell; amount is u32 in the library. -/
structure Resource where
  resource_type : ResourceType
  amount : Nat
  deriving DecidableEq, Repr

/-- A city tile: position plus the per-turn can-act flag (the source
only reads citytile.pos and citytile.can_act()). -/
structure CityTile where
  pos : Position
  can_act : Bool
  deriving DecidableEq, Repr

/-- A grid square: optionally a resource and optionally a city tile. -/
structure Cell where
  pos : Position
  resource : Option Resource
  citytile : Option CityTile
  deriving DecidableEq, Repr

/-- Modelled from the spec: whether the cell holds a resource (library
Cell.has_resource). -/
def Cell.has_resource (c : Cell) : Bool :=
  c.resource.isSome

/-- A city aggregates its tiles (the source only iterates
city.citytiles). -/
structure City where
  citytiles : List CityTile
  deriving DecidableEq, Repr

/-- A controlled actor.  cargo_space_used and can_act mirror the library
accessors; get_cargo_space_left is capacity minus used.  can_build is
modelled from the spec: whether the current position of the worker is
eligible to found a city there, a predicate of the external map model
(library Unit.can_build), carried as a per-unit snapshot flag. -/
structure Unit where
  unit_type : UnitType
  pos : Position
  cargo_space_used : Nat
  cargo_capacity : Nat
  can_act : Bool
  can_build : Bool
  deriving DecidableEq, Repr

/-- Modelled from the spec: remaining carrying capacity (library
Unit.get_cargo_space_left). -/
def Unit.get_cargo_space_left (u : Unit) : Nat :=
  u.cargo_capacity - u.cargo_space_used

/-- The player record the engine reads: units, cities (the source
iterates a hash map of cities; the list order stands for the iteration
order of that collaborator), the running city-tile count, and the
research-unlock status per resource type. -/
structure Player where
  units : List Unit
  cities : List City
  city_tile_count : Nat
  researched : ResourceType → Bool

/-- Library accessor Player.is_researched. -/
def Player.is_researched (p : Player) (rt : ResourceType) : Bool :=
  p.researched rt

/-- The game map: dimensions plus per-position cell contents (the
library indexes the grid by position). -/
structure GameMap where
  width : Nat
  height : Nat
  cellAt : Position → Cell

/-- The engine state: the snapshot the agent exposes (game map, player,
turn counter) plus the one piece of derived state the engine owns, the
eligible-resource set. -/
structure Engine where
  gameMap : GameMap
  player : Player
  turn : Nat
  eligible_resources : List Cell

/-- City::city_build_cost().  Modelled from the spec: the fixed
city-build cost of the game (100 in lux-ai-2021). -/
def City.city_build_cost : Nat := 100

/-- Engine::is_day (main.rs line 23): day iff turn mod 40 is below
30. -/
def is_day (e : Engine) : Bool :=
  decide (e.turn % 40 < 30)

/-- Engine::is_night (main.rs line 25). -/
def is_night (e : Engine) : Bool :=
  !(is_day e)

/-- Engine::turns_until_night (main.rs lines 27-33): none at night,
otherwise 30 minus turn mod 40 (i32 arithmetic in the source). -/
def turns_until_night (e : Engine) : Option Int :=
  if is_night e then none
  else some (30 - ((e.turn : Int) % 40))

/-- Engine::position_in_bounds (main.rs lines 110-115). -/
def position_in_bounds (m : GameMap) (p : Position) : Prop :=
  0 ≤ p.x ∧ 0 ≤ p.y ∧ p.x < (m.width : Int) ∧ p.y < (m.height : Int)

instance (m : GameMap) (p : Position) : Decidable (position_in_bounds m p) := by
  unfold position_in_bounds
  infer_instance

/-- The loop body of Engine::empty_cell_adjacent_to (main.rs lines
117-130), recursing on the list of directions still to try: translate
the position, skip it when out of bounds (continue), otherwise index the
grid and return the cell when it has neither a city tile nor a
resource. -/
def firstEmptyAdj (m : GameMap) (pos : Position) : List Direction → Option Cell
  | [] => none
  | d :: ds =>
    let p := pos.translate d 1
    if position_in_bounds m p then
      let cell := m.cellAt p
      if cell.citytile.isNone && !cell.has_resource then some cell
      else firstEmptyAdj m pos ds
    else firstEmptyAdj m pos ds

/-- Engine::empty_cell_adjacent_to (main.rs lines 117-130): try the four
neighbors in the order north, south, east, west. -/
def empty_cell_adjacent_to (m : GameMap) (pos : Position) : Option Cell :=
  firstEmptyAdj m pos
    [Direction.north, Direction.south, Direction.east, Direction.west]

/-- The running-minimum loop of the two nearest-target searches
(main.rs lines 74-108), with the current best and its distance carried
explicitly: a candidate replaces the best exactly when its distance is
strictly smaller. -/
def closestFrom (dist : α → Int) (b : α) : List α → α
  | [] => b
  | c :: rest =>
    if dist c < dist b then closestFrom dist c rest
    else closestFrom dist b rest

/-- The nearest-target search skeleton: the source starts with best
absent and best distance f32::MAX, so the first candidate (whose
distance is finite, hence below MAX) always installs itself; thereafter
replacement needs a strictly smaller distance. -/
def closestBy (dist : α → Int) : List α → Option α
  | [] => none
  | c :: rest => some (closestFrom dist c rest)

/-- The city tiles of the player in iteration order: every city, then
every tile within it (main.rs lines 80-82). -/
def playerCityTiles (p : Player) : List CityTile :=
  (p.cities.map City.citytiles).flatten

/-- Engine::closest_city_to (main.rs lines 74-93). -/
def closest_city_to (p : Player) (pos : Position) : Option CityTile :=
  closestBy (fun t => t.pos.distance_to pos) (playerCityTiles p)

/-- Engine::closest_eligible_resource_to (main.rs lines 95-108),
scanning the engine-owned eligible-resource list. -/
def closest_eligible_resource_to (cells : List Cell) (pos : Position) : Option Cell :=
  closestBy (fun c => c.pos.distance_to pos) cells

/-- Engine::is_resource_eligible (main.rs lines 186-197): false when the
resource type is not researched; otherwise wood qualifies only above
amount 400, coal and uranium always. -/
def is_resource_eligible (p : Player) (r : Resource) : Bool :=
  if !(p.is_researched r.resource_type) then false
  else
    match r.resource_type with
    | ResourceType.wood => decide (400 < r.amount)
    | ResourceType.coal => true
    | ResourceType.uranium => true

/-- The per-cell body of the scan loop of
Engine::update_eligible_resources (main.rs lines 176-181): when the cell
holds a resource and it is eligible, push the cell onto the
accumulator. -/
def eligStep (m : GameMap) (p : Player) (y : Nat) (acc : List Cell) (x : Nat) : List Cell :=
  let cell := m.cellAt ⟨(x : Int), (y : Int)⟩
  match cell.resource with
  | some r => if is_resource_eligible p r then acc ++ [cell] else acc
  | none => acc

/-- The full-board scan of Engine::update_eligible_resources (main.rs
lines 171-184): for y in 0..height, for x in 0..width, starting from the
empty vector. -/
def scan_eligible (m : GameMap) (p : Player) : List Cell :=
  (List.range m.height).foldl
    (fun acc y => (List.range m.width).foldl (eligStep m p y) acc) []

/-- Engine::update_eligible_resources (main.rs lines 171-184): replace
the engine-owned set wholesale with the fresh scan. -/
def update_eligible_resources (e : Engine) : Engine :=
  { e with eligible_resources := scan_eligible e.gameMap e.player }

/-- An action value the engine can emit (library Action; move carries
the direction, build_city and build_worker are tied to the acting unit
or tile). -/
inductive Action where
  | move (d : Direction)
  | buildCity
  | buildWorker
  deriving DecidableEq, Repr

/-- Engine::turn_cart (main.rs line 132): always no action. -/
def turn_cart (_e : Engine) (_c : Unit) : Option Action :=
  none

/-- Engine::turn_citytile (main.rs lines 134-141): build a worker iff
the city-tile count of the player strictly exceeds the unit count;
otherwise no action.  The tile itself is not consulted. -/
def turn_citytile (p : Player) (_t : CityTile) : Option Action :=
  if p.units.length < p.city_tile_count then some Action.buildWorker
  else none

/-- Engine::turn_worker (main.rs lines 143-169).  The early returns of
the source are chained through Option: the first stage that produces an
action wins.  Stage 1 (cargo at least the build cost): build a city on
the spot when possible, else step toward an empty cell adjacent to the
nearest city.  Stage 2 (free capacity): step toward the nearest eligible
resource.  Stage 3 (no capacity left): step toward the nearest city. -/
def turn_worker (e : Engine) (w : Unit) : Option Action :=
  match
    (if City.city_build_cost ≤ w.cargo_space_used then
      (if w.can_build then some Action.buildCity
       else
         match closest_city_to e.player w.pos with
         | some city =>
           (empty_cell_adjacent_to e.gameMap city.pos).map
             (fun c => Action.move (w.pos.direction_to c.pos))
         | none => none)
     else none) with
  | some a => some a
  | none =>
    match
      (if 0 < w.get_cargo_space_left then
        (closest_eligible_resource_to e.eligible_resources w.pos).map
          (fun c => Action.move (w.pos.direction_to c.pos))
       else none) with
    | some a => some a
    | none =>
      if w.get_cargo_space_left = 0 then
        (closest_city_to e.player w.pos).map
          (fun city => Action.move (w.pos.direction_to city.pos))
      else none

/-- One decision call the orchestrator issues during a turn. -/
inductive PolicyCall where
  | worker (u : Unit)
  | cart (u : Unit)
  | citytile (t : CityTile)
  deriving DecidableEq, Repr

/-- The unit loop of Engine::turn (main.rs lines 41-53): one pass over
player.units in order; a worker that can act gets a Worker Policy call,
a cart that can act gets a Cart Policy call, everything else is
skipped. -/
def unitCalls (p : Player) : List PolicyCall :=
  p.units.filterMap fun u =>
    match u.unit_type with
    | UnitType.worker => if u.can_act then some (PolicyCall.worker u) else none
    | UnitType.cart => if u.can_act then some (PolicyCall.cart u) else none

/-- The city loop of Engine::turn (main.rs lines 55-64): every city,
every tile within it, a City-Tile Policy call for each tile that can
act. -/
def cityCalls (p : Player) : List PolicyCall :=
  (p.cities.map (fun c =>
    c.citytiles.filterMap fun t =>
      if t.can_act then some (PolicyCall.citytile t) else none)).flatten

/-- The trace of decision calls of one Engine::turn (main.rs lines
41-64): the unit loop runs to completion before the city loop starts. -/
def turnCalls (p : Player) : List PolicyCall :=
  unitCalls p ++ cityCalls p

def isWorkerCall : PolicyCall → Bool
  | PolicyCall.worker _ => true
  | _ => false

def isCartCall : PolicyCall → Bool
  | PolicyCall.cart _ => true
  | _ => false

def isUnitCall : PolicyCall → Bool
  | PolicyCall.worker _ => true
  | PolicyCall.cart _ => true
  | PolicyCall.citytile _ => false

def isCityCall : PolicyCall → Bool
  | PolicyCall.citytile _ => true
  | _ => false

/-- The can-act flag of the actor a decision call addresses. -/
def callCanAct : PolicyCall → Bool
  | PolicyCall.worker u => u.can_act
  | PolicyCall.cart u => u.can_act
  | PolicyCall.citytile t => t.can_act

/-- The per-cell result of the eligibility scan, as an Option: the cell
itself when it holds an eligible resource. -/
def eligCell (m : GameMap) (p : Player) (x y : Nat) : Option Cell :=
  match (m.cellAt ⟨(x : Int), (y : Int)⟩).resource with
  | some r =>
    if is_resource_eligible p r then some (m.cellAt ⟨(x : Int), (y : Int)⟩)
    else none
  | none => none

/-- The eligible-resource set as the spec words it: the qualifying cells
of the board in row-major single-pass scan order. -/
def rowMajorEligible (m : GameMap) (p : Player) : List Cell :=
  ((List.range m.height).map
    (fun y => (List.range m.width).filterMap (fun x => eligCell m p x y))).flatten

/-! Concrete states used to instantiate theorems with hypotheses. -/

/-- A map cell with nothing on it. -/
def emptyCellAt (q : Position) : Cell :=
  { pos := q, resource := none, citytile := none }

/-- A bare one-by-one map. -/
def map1 : GameMap :=
  { width := 1, height := 1, cellAt := emptyCellAt }

/-- A player that owns nothing. -/
def player0 : Player :=
  { units := [], cities := [], city_tile_count := 0, researched := fun _ => false }

/-- C8 witness state: an engine on turn 5. -/
def e8 : Engine :=
  { gameMap := map1, player := player0, turn := 5, eligible_resources := [] }

/-- C6 witness state: a worker with exactly the build cost on board and
free capacity, standing on a build-eligible cell. -/
def w6 : Unit :=
  { unit_type := UnitType.worker, pos := ⟨0, 0⟩, cargo_space_used := 100,
    cargo_capacity := 150, can_act := true, can_build := true }

/-- C6 witness state: an engine for the build-priority instance. -/
def e6 : Engine :=
  { gameMap := map1, player := player0, turn := 0, eligible_resources := [] }

/-- C2 counterexample state: a worker that cannot act this turn, with
full cargo on a build-eligible cell. -/
def w2 : Unit :=
  { unit_type := UnitType.worker, pos := ⟨0, 0⟩, cargo_space_used := 100,
    cargo_capacity := 100, can_act := false, can_build := true }

/-- C2 counterexample state: the engine around w2. -/
def e2 : Engine :=
  { gameMap := map1, player := player0, turn := 0, eligible_resources := [] }

/-- C2 witness state: a worker that can act. -/
def u2 : Unit :=
  { unit_type := UnitType.worker, pos := ⟨0, 0⟩, cargo_space_used := 0,
    cargo_capacity := 100, can_act := true, can_build := false }

/-- C2 witness state: the player owning u2. -/
def p2 : Player :=
  { units := [u2], cities := [], city_tile_count := 0,
    researched := fun _ => false }

/-- C9 counterexample state: a cart listed before a worker, both able to
act. -/
def cart9 : Unit :=
  { unit_type := UnitType.cart, pos := ⟨0, 0⟩, cargo_space_used := 0,
    cargo_capacity := 100, can_act := true, can_build := false }

/-- C9 counterexample state: the worker listed after the cart. -/
def worker9 : Unit :=
  { unit_type := UnitType.worker, pos := ⟨1, 0⟩, cargo_space_used := 0,
    cargo_capacity := 100, can_act := true, can_build := false }

/-- C9 counterexample state: the player whose unit list is cart first,
then worker. -/
def p9 : Player :=
  { units := [cart9, worker9], cities := [], city_tile_count := 0,
    researched := fun _ => false }

/-- C3 witness state: a coal cell on a one-by-one board. -/
def cellCoal : Cell :=
  { pos := ⟨0, 0⟩, resource := some ⟨ResourceType.coal, 1⟩, citytile := none }

/-- C3 witness state: the board holding cellCoal. -/
def m3 : GameMap :=
  { width := 1, height := 1, cellAt := fun _ => cellCoal }

/-- C3 witness state: a player with everything researched. -/
def p3 : Player :=
  { units := [], cities := [], city_tile_count := 0, researched := fun _ => true }

/-- C3 witness state: the engine around m3 and p3. -/
def e3 : Engine :=
  { gameMap := m3, player := p3, turn := 0, eligible_resources := [] }

/-- C7 witness state: an engine whose stale eligible set is nonempty. -/
def e7 : Engine :=
  { gameMap := m3, player := p3, turn := 0, eligible_resources := [cellCoal] }

/-- C4 witness state: two city tiles tied at distance one from the
origin; the first in iteration order must win. -/
def t4a : CityTile := { pos := ⟨1, 0⟩, can_act := true }

/-- C4 witness state: the second, equally distant tile. -/
def t4b : CityTile := { pos := ⟨0, 1⟩, can_act := true }

/-- C4 witness state: the player owning the two tied tiles in two
cities. -/
def p4 : Player :=
  { units := [], cities := [⟨[t4a]⟩, ⟨[t4b]⟩], city_tile_count := 2,
    researched := fun _ => false }

/-- A neighbor direction qualifies for the empty-adjacent-cell search
when the translated position is on the map and its cell has neither a
city tile nor a resource. -/
def adjOk (m : GameMap) (pos : Position) (d : Direction) : Prop :=
  position_in_bounds m (pos.translate d 1) ∧
  ((m.cellAt (pos.translate d 1)).citytile.isNone &&
    !(m.cellAt (pos.translate d 1)).has_resource) = true

instance (m : GameMap) (pos : Position) (d : Direction) :
    Decidable (adjOk m pos d) := by
  unfold adjOk
  infer_instance

/-- C1 states: the single city tile of the blocked-worker scenario. -/
def ct1 : CityTile := { pos := ⟨0, 0⟩, can_act := false }

/-- C1 states: a full worker that cannot found a city where it
stands. -/
def w1 : Unit :=
  { unit_type := UnitType.worker, pos := ⟨0, 0⟩, cargo_space_used := 100,
    cargo_capacity := 100, can_act := true, can_build := false }

/-- C1 states: a one-by-one board whose only cell carries the city
tile, so every neighbor of the city is out of bounds. -/
def m1c : GameMap :=
  { width := 1, height := 1,
    cellAt := fun q => { pos := q, resource := none, citytile := some ct1 } }

/-- C1 states: the player owning the one-tile city and the worker. -/
def p1 : Player :=
  { units := [w1], cities := [⟨[ct1]⟩], city_tile_count := 1,
    researched := fun _ => false }

/-- C1 states: the engine of the blocked-worker scenario. -/
def e1 : Engine :=
  { gameMap := m1c, player := p1, turn := 0, eligible_resources := [] }

/-- C10 witness state: a two-by-one board of bare cells; from the
origin, north, south and west are out of bounds and east is empty. -/
def m10 : GameMap :=
  { width := 2, height := 1, cellAt := fun q => ⟨q, none, none⟩ }

/-! Theorems settling the claims, with shared helper lemmas. -/

/-- C8: for every turn number, the phase is day exactly when turn mod 40
is below 30 and night otherwise; turns-until-night is 30 minus
(turn mod 40) when day and absent when night. -/
theorem c8_day_night_phase (e : Engine) :
    (is_day e = true ↔ e.turn % 40 < 30) ∧
    (is_night e = true ↔ ¬ e.turn % 40 < 30) ∧
    (is_day e = true → turns_until_night e = some (30 - ((e.turn : Int) % 40))) ∧
    (is_night e = true → turns_until_night e = none) := by
  refine ⟨by simp [is_day], by simp [is_night, is_day], ?_, ?_⟩
  · intro h
    simp [turns_until_night, is_night, h]
  · intro h
    simp only [turns_until_night, h, if_pos]

/-- C8 instantiated on a concrete turn number. -/
theorem c8_day_night_phase_witness :
    turns_until_night e8 = some (30 - ((e8.turn : Int) % 40)) :=
  (c8_day_night_phase e8).2.2.1 (by decide)

/-- C5: for every city tile, the City-Tile Policy emits Build-Worker iff
the city-tile count of the player strictly exceeds the unit count, and
yields no action otherwise; the tile itself is not consulted, so the
same decision is made at every tile that turn. -/
theorem c5_admission_control (p : Player) (t : CityTile) :
    (turn_citytile p t = some Action.buildWorker ↔
      p.units.length < p.city_tile_count) ∧
    (turn_citytile p t = none ↔ p.city_tile_count ≤ p.units.length) := by
  unfold turn_citytile
  by_cases h : p.units.length < p.city_tile_count
  · rw [if_pos h]
    refine ⟨by simp [h], ?_⟩
    simp
    omega
  · rw [if_neg h]
    refine ⟨by simp; omega, ?_⟩
    simp
    omega

/-- C6: a worker with cargo at least the build cost, free cargo
capacity, and a build-eligible current position emits Build-City, never
a move toward a resource: stage 1 of the policy runs before stage 2. -/
theorem c6_build_city_priority (e : Engine) (w : Unit)
    (hcargo : City.city_build_cost ≤ w.cargo_space_used)
    (_hspace : 0 < w.get_cargo_space_left)
    (hbuild : w.can_build = true) :
    turn_worker e w = some Action.buildCity := by
  unfold turn_worker
  simp [hcargo, hbuild]

/-- C6 instantiated on a concrete worker. -/
theorem c6_build_city_priority_witness :
    turn_worker e6 w6 = some Action.buildCity :=
  c6_build_city_priority e6 w6 (by decide) (by decide) (by decide)

/-- C2 is false as stated: the Worker Policy itself never consults the
can-act flag, so called directly on a can-act-false worker it can yield
an action. -/
theorem c2_counterexample :
    w2.can_act = false ∧ turn_worker e2 w2 = some Action.buildCity := by
  exact ⟨rfl, rfl⟩

/-- C2 amended: the orchestrator guards every decision call, so each
call of a turn addresses an actor whose can-act flag is true; an actor
with can-act = false receives no decision call and contributes no
action. -/
theorem c2_can_act_guard (p : Player) (c : PolicyCall)
    (hc : c ∈ turnCalls p) : callCanAct c = true := by
  rcases List.mem_append.mp hc with h | h
  · rcases List.mem_filterMap.mp h with ⟨u, _, hstep⟩
    cases htype : u.unit_type <;> rw [htype] at hstep <;>
      by_cases ha : u.can_act = true <;> simp [ha] at hstep <;>
      rw [← hstep] <;> simpa [callCanAct] using ha
  · rcases List.mem_flatten.mp h with ⟨l, hl, hcl⟩
    rcases List.mem_map.mp hl with ⟨city, _, rfl⟩
    rcases List.mem_filterMap.mp hcl with ⟨t, _, hstep⟩
    by_cases ha : t.can_act = true <;> simp [ha] at hstep
    rw [← hstep]
    simpa [callCanAct] using ha

/-- C2 amended, instantiated on a concrete turn trace. -/
theorem c2_can_act_guard_witness :
    callCanAct (PolicyCall.worker u2) = true :=
  c2_can_act_guard p2 (PolicyCall.worker u2) (by decide)

/-- C9 is false as stated: the single unit loop of the orchestrator
handles workers and carts interleaved in unit-list order, so on a player
whose unit list holds a cart before a worker the Cart Policy call
precedes the Worker Policy call. -/
theorem c9_counterexample :
    ¬ (∀ i j : Fin (turnCalls p9).length,
        isWorkerCall ((turnCalls p9).get i) = true →
        isCartCall ((turnCalls p9).get j) = true →
        (i : Nat) < (j : Nat)) := by
  decide

/-- C9 amended: worker and cart decision calls are interleaved in the
iteration order of the unit list within one loop; every unit-policy call
(worker or cart) still occurs before any City-Tile Policy call. -/
theorem c9_units_before_citytiles (p : Player) :
    ∃ l1 l2, turnCalls p = l1 ++ l2 ∧
      (∀ c ∈ l1, isUnitCall c = true) ∧
      (∀ c ∈ l2, isCityCall c = true) := by
  refine ⟨unitCalls p, cityCalls p, rfl, ?_, ?_⟩
  · intro c hc
    rcases List.mem_filterMap.mp hc with ⟨u, _, hstep⟩
    cases htype : u.unit_type <;> rw [htype] at hstep <;>
      by_cases ha : u.can_act = true <;> simp [ha] at hstep <;>
      rw [← hstep] <;> rfl
  · intro c hc
    rcases List.mem_flatten.mp hc with ⟨l, hl, hcl⟩
    rcases List.mem_map.mp hl with ⟨city, _, rfl⟩
    rcases List.mem_filterMap.mp hcl with ⟨t, _, hstep⟩
    by_cases ha : t.can_act = true <;> simp [ha] at hstep
    rw [← hstep]
    rfl

/-- One row of the scan: folding the per-cell push step over the column
indices appends exactly the qualifying cells of that row. -/
lemma inner_foldl_eligStep (m : GameMap) (p : Player) (y : Nat) :
    ∀ (xs : List Nat) (acc : List Cell),
      xs.foldl (eligStep m p y) acc =
        acc ++ xs.filterMap (fun x => eligCell m p x y) := by
  intro xs
  induction xs with
  | nil => intro acc; simp
  | cons x xs ih =>
    intro acc
    rw [List.foldl_cons, ih, List.filterMap_cons]
    unfold eligStep eligCell
    cases hr : (m.cellAt ⟨(x : Int), (y : Int)⟩).resource with
    | none => simp [hr]
    | some r =>
      by_cases he : is_resource_eligible p r = true <;> simp [hr, he]

/-- The whole scan equals the flattened list of rows. -/
lemma scan_eligible_eq_rowMajor (m : GameMap) (p : Player) :
    scan_eligible m p = rowMajorEligible m p := by
  unfold scan_eligible rowMajorEligible
  suffices h : ∀ (ys : List Nat) (acc : List Cell),
      ys.foldl (fun acc y => (List.range m.width).foldl (eligStep m p y) acc) acc
        = acc ++
          (ys.map fun y =>
            (List.range m.width).filterMap fun x => eligCell m p x y).flatten by
    simpa using h (List.range m.height) []
  intro ys
  induction ys with
  | nil => intro acc; simp
  | cons y ys ih =>
    intro acc
    rw [List.foldl_cons, inner_foldl_eligStep, ih]
    simp [List.append_assoc]

/-- Membership in the scan result, unfolded to coordinates. -/
lemma mem_scan_eligible (m : GameMap) (p : Player) (c : Cell) :
    c ∈ scan_eligible m p ↔
      ∃ x y, x < m.width ∧ y < m.height ∧ eligCell m p x y = some c := by
  rw [scan_eligible_eq_rowMajor]
  unfold rowMajorEligible
  simp only [List.mem_flatten, List.mem_map]
  constructor
  · rintro ⟨l, ⟨y, hy, rfl⟩, hc⟩
    rcases List.mem_filterMap.mp hc with ⟨x, hx, hcx⟩
    exact ⟨x, y, List.mem_range.mp hx, List.mem_range.mp hy, hcx⟩
  · rintro ⟨x, y, hx, hy, hcx⟩
    exact ⟨_, ⟨y, List.mem_range.mpr hy, rfl⟩,
      List.mem_filterMap.mpr ⟨x, List.mem_range.mpr hx, hcx⟩⟩

/-- What the per-cell scan result says about the produced cell. -/
lemma eligCell_eq_some (m : GameMap) (p : Player) (x y : Nat) (c : Cell) :
    eligCell m p x y = some c ↔
      c = m.cellAt ⟨(x : Int), (y : Int)⟩ ∧
      ∃ r, c.resource = some r ∧ is_resource_eligible p r = true := by
  unfold eligCell
  cases hr : (m.cellAt ⟨(x : Int), (y : Int)⟩).resource with
  | none =>
    constructor
    · intro h
      simp at h
    · rintro ⟨rfl, r, hcr, _⟩
      rw [hr] at hcr
      cases hcr
  | some r =>
    by_cases he : is_resource_eligible p r = true
    · simp only [he, if_pos]
      constructor
      · intro h
        have hc := Option.some.inj h
        exact ⟨hc.symm, r, by rw [← hc]; exact hr, he⟩
      · rintro ⟨rfl, _, _, _⟩
        rfl
    · simp only [he, if_neg, Bool.false_eq_true]
      constructor
      · intro h
        simp at h
      · rintro ⟨rfl, r2, hcr, he2⟩
        rw [hr] at hcr
        cases Option.some.inj hcr
        exact absurd he2 he

/-- The code predicate is_resource_eligible, restated as the spec words
it: the type is unlocked, and wood additionally needs amount above
400. -/
lemma is_resource_eligible_iff (p : Player) (r : Resource) :
    is_resource_eligible p r = true ↔
      p.researched r.resource_type = true ∧
      (r.resource_type = ResourceType.wood → 400 < r.amount) := by
  rcases r with ⟨rt, amount⟩
  unfold is_resource_eligible Player.is_researched
  by_cases h : p.researched rt = true
  · cases rt <;> simp [h]
  · cases rt <;> simp [h]

/-- C3: a board cell is in the rebuilt eligible-resource set iff it
holds a resource whose type is research-unlocked and, when the type is
wood, the amount is strictly above 400; coal and uranium qualify at any
amount once unlocked and never while locked. -/
theorem c3_resource_eligibility (e : Engine) (x y : Nat)
    (hx : x < e.gameMap.width) (hy : y < e.gameMap.height) :
    e.gameMap.cellAt ⟨(x : Int), (y : Int)⟩ ∈
        (update_eligible_resources e).eligible_resources ↔
      ∃ r, (e.gameMap.cellAt ⟨(x : Int), (y : Int)⟩).resource = some r ∧
        e.player.researched r.resource_type = true ∧
        (r.resource_type = ResourceType.wood → 400 < r.amount) := by
  have hmem := mem_scan_eligible e.gameMap e.player
    (e.gameMap.cellAt ⟨(x : Int), (y : Int)⟩)
  constructor
  · intro h
    rcases hmem.mp h with ⟨x2, y2, _, _, hcell⟩
    rcases (eligCell_eq_some _ _ _ _ _).mp hcell with ⟨_, r, hr, helig⟩
    exact ⟨r, hr, (is_resource_eligible_iff e.player r).mp helig⟩
  · rintro ⟨r, hr, hres, hwood⟩
    exact hmem.mpr ⟨x, y, hx, hy, (eligCell_eq_some _ _ _ _ _).mpr
      ⟨rfl, r, hr, (is_resource_eligible_iff e.player r).mpr ⟨hres, hwood⟩⟩⟩

/-- C3 instantiated on a concrete unlocked coal cell. -/
theorem c3_resource_eligibility_witness :
    e3.gameMap.cellAt ⟨((0 : Nat) : Int), ((0 : Nat) : Int)⟩ ∈
        (update_eligible_resources e3).eligible_resources ↔
      ∃ r, (e3.gameMap.cellAt ⟨((0 : Nat) : Int), ((0 : Nat) : Int)⟩).resource
            = some r ∧
        e3.player.researched r.resource_type = true ∧
        (r.resource_type = ResourceType.wood → 400 < r.amount) :=
  c3_resource_eligibility e3 0 0 (by decide) (by decide)

/-- C7: the rebuilt eligible-resource set is a pure function of the
board and the research-unlock state: engines agreeing on board and
player rebuild identical sets regardless of the prior set, the result is
the row-major single-pass filter of the board, and rebuilding twice
changes nothing. -/
theorem c7_rebuild_deterministic (d1 d2 : Engine)
    (hm : d1.gameMap = d2.gameMap) (hp : d1.player = d2.player) :
    (update_eligible_resources d1).eligible_resources
        = (update_eligible_resources d2).eligible_resources ∧
    (update_eligible_resources d1).eligible_resources
        = rowMajorEligible d1.gameMap d1.player ∧
    update_eligible_resources (update_eligible_resources d1)
        = update_eligible_resources d1 := by
  refine ⟨?_, ?_, rfl⟩
  · show scan_eligible d1.gameMap d1.player = scan_eligible d2.gameMap d2.player
    rw [hm, hp]
  · exact scan_eligible_eq_rowMajor d1.gameMap d1.player

/-- C7 instantiated on a concrete engine carrying a stale set. -/
theorem c7_rebuild_deterministic_witness :
    (update_eligible_resources e7).eligible_resources
        = (update_eligible_resources e7).eligible_resources ∧
    (update_eligible_resources e7).eligible_resources
        = rowMajorEligible e7.gameMap e7.player ∧
    update_eligible_resources (update_eligible_resources e7)
        = update_eligible_resources e7 :=
  c7_rebuild_deterministic e7 e7 rfl rfl

/-- The loop result is a running minimum: it is no farther than the
initial best and no farther than any candidate seen. -/
lemma closestFrom_le (dist : α → Int) :
    ∀ (l : List α) (b : α),
      dist (closestFrom dist b l) ≤ dist b ∧
      ∀ c ∈ l, dist (closestFrom dist b l) ≤ dist c := by
  intro l
  induction l with
  | nil =>
    intro b
    exact ⟨le_refl _, by simp⟩
  | cons c cs ih =>
    intro b
    by_cases h : dist c < dist b
    · have hres : closestFrom dist b (c :: cs) = closestFrom dist c cs := by
        simp [closestFrom, h]
      rcases ih c with ⟨h1, h2⟩
      rw [hres]
      refine ⟨le_trans h1 (le_of_lt h), ?_⟩
      intro x hx
      rcases List.mem_cons.mp hx with rfl | hx
      · exact h1
      · exact h2 x hx
    · have hres : closestFrom dist b (c :: cs) = closestFrom dist b cs := by
        simp [closestFrom, h]
      push_neg at h
      rcases ih b with ⟨h1, h2⟩
      rw [hres]
      refine ⟨h1, ?_⟩
      intro x hx
      rcases List.mem_cons.mp hx with rfl | hx
      · exact le_trans h1 h
      · exact h2 x hx

/-- The loop result is either the initial best, untouched, or the
earliest candidate that strictly improves on everything seen before
it. -/
lemma closestFrom_first (dist : α → Int) :
    ∀ (l : List α) (b : α),
      closestFrom dist b l = b ∨
      ∃ l1 c l2, l = l1 ++ c :: l2 ∧ closestFrom dist b l = c ∧
        dist c < dist b ∧ ∀ x ∈ l1, dist c < dist x := by
  intro l
  induction l with
  | nil =>
    intro b
    left
    rfl
  | cons c cs ih =>
    intro b
    by_cases h : dist c < dist b
    · have hres : closestFrom dist b (c :: cs) = closestFrom dist c cs := by
        simp [closestFrom, h]
      rcases ih c with h0 | ⟨l1, d, l2, heq, hres2, hlt, hall⟩
      · right
        exact ⟨[], c, cs, rfl, by rw [hres, h0], h, by simp⟩
      · right
        refine ⟨c :: l1, d, l2, by rw [heq]; rfl, by rw [hres, hres2],
          lt_trans hlt h, ?_⟩
        intro x hx
        rcases List.mem_cons.mp hx with rfl | hx
        · exact hlt
        · exact hall x hx
    · have hres : closestFrom dist b (c :: cs) = closestFrom dist b cs := by
        simp [closestFrom, h]
      push_neg at h
      rcases ih b with h0 | ⟨l1, d, l2, heq, hres2, hlt, hall⟩
      · left
        rw [hres, h0]
      · right
        refine ⟨c :: l1, d, l2, by rw [heq]; rfl, by rw [hres, hres2],
          hlt, ?_⟩
        intro x hx
        rcases List.mem_cons.mp hx with rfl | hx
        · exact lt_of_lt_of_le hlt h
        · exact hall x hx

/-- The search returns no target exactly on the empty candidate list. -/
lemma closestBy_eq_none (dist : α → Int) (l : List α) :
    closestBy dist l = none ↔ l = [] := by
  cases l <;> simp [closestBy]

/-- A returned target is an earliest minimum: no candidate is strictly
closer, and every candidate encountered before it is strictly
farther. -/
lemma closestBy_eq_some (dist : α → Int) (l : List α) (b : α)
    (h : closestBy dist l = some b) :
    (∀ c ∈ l, dist b ≤ dist c) ∧
    ∃ l1 l2, l = l1 ++ b :: l2 ∧ ∀ x ∈ l1, dist b < dist x := by
  cases l with
  | nil => simp [closestBy] at h
  | cons c cs =>
    have hb : closestFrom dist c cs = b := by
      simpa [closestBy] using h
    have hle := closestFrom_le dist cs c
    rcases closestFrom_first dist cs c with h0 | ⟨l1, d, l2, heq, hres, hlt, hall⟩
    · rw [h0] at hb
      subst hb
      rw [h0] at hle
      refine ⟨?_, [], cs, rfl, by simp⟩
      intro x hx
      rcases List.mem_cons.mp hx with rfl | hx
      · exact le_refl _
      · exact hle.2 x hx
    · rw [hres] at hb
      subst hb
      rw [hres] at hle
      refine ⟨?_, c :: l1, l2, by rw [heq]; rfl, ?_⟩
      · intro x hx
        rcases List.mem_cons.mp hx with rfl | hx
        · exact hle.1
        · exact hle.2 x hx
      · intro x hx
        rcases List.mem_cons.mp hx with rfl | hx
        · exact hlt
        · exact hall x hx

/-- C4: in both nearest-target searches a candidate replaces the current
best only on strictly smaller distance, so the returned target is a
closest candidate and every candidate encountered earlier in iteration
order is strictly farther (ties keep the earliest); an empty candidate
set returns no target. -/
theorem c4_nearest_target (p : Player) (cells : List Cell) (pos : Position) :
    (closest_city_to p pos = none ↔ playerCityTiles p = []) ∧
    (∀ t, closest_city_to p pos = some t →
      (∀ u ∈ playerCityTiles p, t.pos.distance_to pos ≤ u.pos.distance_to pos) ∧
      ∃ l1 l2, playerCityTiles p = l1 ++ t :: l2 ∧
        ∀ u ∈ l1, t.pos.distance_to pos < u.pos.distance_to pos) ∧
    (closest_eligible_resource_to cells pos = none ↔ cells = []) ∧
    (∀ c, closest_eligible_resource_to cells pos = some c →
      (∀ u ∈ cells, c.pos.distance_to pos ≤ u.pos.distance_to pos) ∧
      ∃ l1 l2, cells = l1 ++ c :: l2 ∧
        ∀ u ∈ l1, c.pos.distance_to pos < u.pos.distance_to pos) := by
  refine ⟨closestBy_eq_none _ _, ?_, closestBy_eq_none _ _, ?_⟩
  · intro t ht
    exact closestBy_eq_some _ _ _ ht
  · intro c hc
    exact closestBy_eq_some _ _ _ hc

/-- C4 instantiated: on the tie the search keeps the earliest tile. -/
theorem c4_nearest_target_witness :
    (∀ u ∈ playerCityTiles p4,
      t4a.pos.distance_to ⟨0, 0⟩ ≤ u.pos.distance_to ⟨0, 0⟩) ∧
    ∃ l1 l2, playerCityTiles p4 = l1 ++ t4a :: l2 ∧
      ∀ u ∈ l1, t4a.pos.distance_to ⟨0, 0⟩ < u.pos.distance_to ⟨0, 0⟩ :=
  (c4_nearest_target p4 [] ⟨0, 0⟩).2.1 t4a (by decide)

/-- C1 is false as stated: with cargo at the build cost, no
build-eligible cell underfoot, a nearest city all of whose neighbors are
blocked, and zero cargo space left, the Worker Policy does not stop: it
falls through to stage 3 and emits a move toward the nearest city. -/
theorem c1_counterexample :
    (City.city_build_cost ≤ w1.cargo_space_used ∧ w1.can_build = false ∧
      closest_city_to e1.player w1.pos = some ct1 ∧
      empty_cell_adjacent_to e1.gameMap ct1.pos = none) ∧
    turn_worker e1 w1 = some (Action.move Direction.center) ∧
    turn_worker e1 w1 ≠ none := by
  refine ⟨⟨by decide, rfl, by decide, by decide⟩, by decide, by decide⟩

/-- C1 amended: under those hypotheses the worker is not necessarily
actionless; the policy falls through: with free cargo capacity it moves
toward the nearest eligible resource when one exists (and only in the
resource-less case yields nothing), and with zero cargo space left it
moves one step toward the nearest city. -/
theorem c1_blocked_build_falls_through (e : Engine) (w : Unit) (t : CityTile)
    (hcargo : City.city_build_cost ≤ w.cargo_space_used)
    (hbuild : w.can_build = false)
    (hcity : closest_city_to e.player w.pos = some t)
    (hempty : empty_cell_adjacent_to e.gameMap t.pos = none) :
    turn_worker e w =
      if 0 < w.get_cargo_space_left then
        (closest_eligible_resource_to e.eligible_resources w.pos).map
          (fun c => Action.move (w.pos.direction_to c.pos))
      else some (Action.move (w.pos.direction_to t.pos)) := by
  unfold turn_worker
  rw [if_pos hcargo, hbuild]
  simp only [Bool.false_eq_true, if_false, hcity, hempty, Option.map_none']
  by_cases hleft : 0 < w.get_cargo_space_left
  · simp only [if_pos hleft]
    cases hres : closest_eligible_resource_to e.eligible_resources w.pos with
    | some c => simp [hres]
    | none =>
      simp only [hres, Option.map_none']
      rw [if_neg (by omega : ¬ w.get_cargo_space_left = 0)]
  · simp only [if_neg hleft]
    have h0 : w.get_cargo_space_left = 0 := by omega
    simp [h0, hcity]

/-- C1 amended, instantiated on the blocked-worker scenario. -/
theorem c1_blocked_build_falls_through_witness :
    turn_worker e1 w1 =
      if 0 < w1.get_cargo_space_left then
        (closest_eligible_resource_to e1.eligible_resources w1.pos).map
          (fun c => Action.move (w1.pos.direction_to c.pos))
      else some (Action.move (w1.pos.direction_to ct1.pos)) :=
  c1_blocked_build_falls_through e1 w1 ct1 (by decide) rfl (by decide)
    (by decide)

/-- The empty-adjacent-cell loop returns nothing exactly when no
remaining direction qualifies. -/
lemma firstEmptyAdj_none_iff (m : GameMap) (pos : Position) :
    ∀ ds : List Direction,
      firstEmptyAdj m pos ds = none ↔ ∀ d ∈ ds, ¬ adjOk m pos d := by
  intro ds
  induction ds with
  | nil => simp [firstEmptyAdj]
  | cons d ds ih =>
    by_cases hb : position_in_bounds m (pos.translate d 1)
    · by_cases he : ((m.cellAt (pos.translate d 1)).citytile.isNone &&
          !(m.cellAt (pos.translate d 1)).has_resource) = true
      · have hres : firstEmptyAdj m pos (d :: ds)
            = some (m.cellAt (pos.translate d 1)) := by
          simp [firstEmptyAdj, hb, he]
        have hok : adjOk m pos d := ⟨hb, he⟩
        constructor
        · intro h
          rw [hres] at h
          cases h
        · intro h
          exact absurd hok (h d (by simp))
      · have hres : firstEmptyAdj m pos (d :: ds) = firstEmptyAdj m pos ds := by
          simp [firstEmptyAdj, hb, he]
        have hnok : ¬ adjOk m pos d := fun hok => he hok.2
        rw [hres, ih]
        simp [List.forall_mem_cons, hnok]
    · have hres : firstEmptyAdj m pos (d :: ds) = firstEmptyAdj m pos ds := by
        simp [firstEmptyAdj, hb]
      have hnok : ¬ adjOk m pos d := fun hok => hb hok.1
      rw [hres, ih]
      simp [List.forall_mem_cons, hnok]

/-- A cell returned by the empty-adjacent-cell loop comes from the first
qualifying direction: every direction tried before it failed either the
bounds check or the emptiness check. -/
lemma firstEmptyAdj_some (m : GameMap) (pos : Position) :
    ∀ (ds : List Direction) (c : Cell),
      firstEmptyAdj m pos ds = some c →
        ∃ l1 d l2, ds = l1 ++ d :: l2 ∧ adjOk m pos d ∧
          c = m.cellAt (pos.translate d 1) ∧ ∀ d2 ∈ l1, ¬ adjOk m pos d2 := by
  intro ds
  induction ds with
  | nil =>
    intro c h
    simp [firstEmptyAdj] at h
  | cons d ds ih =>
    intro c h
    by_cases hb : position_in_bounds m (pos.translate d 1)
    · by_cases he : ((m.cellAt (pos.translate d 1)).citytile.isNone &&
          !(m.cellAt (pos.translate d 1)).has_resource) = true
      · have hres : firstEmptyAdj m pos (d :: ds)
            = some (m.cellAt (pos.translate d 1)) := by
          simp [firstEmptyAdj, hb, he]
        rw [hres] at h
        exact ⟨[], d, ds, rfl, ⟨hb, he⟩, (Option.some.inj h).symm, by simp⟩
      · have hres : firstEmptyAdj m pos (d :: ds) = firstEmptyAdj m pos ds := by
          simp [firstEmptyAdj, hb, he]
        rw [hres] at h
        rcases ih c h with ⟨l1, d2, l2, heq, hok, hcell, hall⟩
        refine ⟨d :: l1, d2, l2, by rw [heq]; rfl, hok, hcell, ?_⟩
        intro x hx
        rcases List.mem_cons.mp hx with rfl | hx
        · exact fun hok2 => he hok2.2
        · exact hall x hx
    · have hres : firstEmptyAdj m pos (d :: ds) = firstEmptyAdj m pos ds := by
        simp [firstEmptyAdj, hb]
      rw [hres] at h
      rcases ih c h with ⟨l1, d2, l2, heq, hok, hcell, hall⟩
      refine ⟨d :: l1, d2, l2, by rw [heq]; rfl, hok, hcell, ?_⟩
      intro x hx
      rcases List.mem_cons.mp hx with rfl | hx
      · exact fun hok2 => hb hok2.1
      · exact hall x hx

/-- The loop only indexes the grid at in-bounds positions: two maps of
the same dimensions agreeing on all in-bounds cells give the same
result. -/
lemma firstEmptyAdj_congr (m m2 : GameMap) (pos : Position)
    (hw : m.width = m2.width) (hh : m.height = m2.height)
    (hc : ∀ q, position_in_bounds m q → m.cellAt q = m2.cellAt q) :
    ∀ ds : List Direction, firstEmptyAdj m pos ds = firstEmptyAdj m2 pos ds := by
  intro ds
  induction ds with
  | nil => rfl
  | cons d ds ih =>
    have hbiff : position_in_bounds m (pos.translate d 1) ↔
        position_in_bounds m2 (pos.translate d 1) := by
      unfold position_in_bounds
      rw [hw, hh]
    by_cases hb : position_in_bounds m (pos.translate d 1)
    · have hb2 := hbiff.mp hb
      have hcell := hc _ hb
      by_cases he : ((m.cellAt (pos.translate d 1)).citytile.isNone &&
          !(m.cellAt (pos.translate d 1)).has_resource) = true
      · have he2 := hcell ▸ he
        simp [firstEmptyAdj, hb, hb2, he, he2, hcell]
      · have he2 : ¬ ((m2.cellAt (pos.translate d 1)).citytile.isNone &&
            !(m2.cellAt (pos.translate d 1)).has_resource) = true := by
          rw [← hcell]
          exact he
        simp [firstEmptyAdj, hb, hb2, he, he2, ih]
    · have hb2 : ¬ position_in_bounds m2 (pos.translate d 1) :=
        fun hx => hb (hbiff.mpr hx)
      simp [firstEmptyAdj, hb, hb2, ih]

/-- C10: the empty-adjacent-cell search tries the four neighbors in the
fixed order north, south, east, west, skips out-of-bounds neighbors
before indexing the grid (so only in-bounds cells are ever read), and
returns the first in-bounds neighbor cell with neither a city tile nor a
resource, or nothing when none qualifies. -/
theorem c10_empty_cell_adjacent (m m2 : GameMap) (pos : Position) :
    (empty_cell_adjacent_to m pos = none ↔
      ∀ d ∈ [Direction.north, Direction.south, Direction.east,
        Direction.west], ¬ adjOk m pos d) ∧
    (∀ c, empty_cell_adjacent_to m pos = some c →
      ∃ l1 d l2,
        [Direction.north, Direction.south, Direction.east, Direction.west]
          = l1 ++ d :: l2 ∧
        adjOk m pos d ∧ c = m.cellAt (pos.translate d 1) ∧
        ∀ d2 ∈ l1, ¬ adjOk m pos d2) ∧
    (m.width = m2.width → m.height = m2.height →
      (∀ q, position_in_bounds m q → m.cellAt q = m2.cellAt q) →
      empty_cell_adjacent_to m pos = empty_cell_adjacent_to m2 pos) := by
  refine ⟨firstEmptyAdj_none_iff m pos _, ?_, ?_⟩
  · intro c hc
    exact firstEmptyAdj_some m pos _ c hc
  · intro hw hh hc
    exact firstEmptyAdj_congr m m2 pos hw hh hc _

/-- C10 instantiated: from the origin of a two-by-one board the first
qualifying neighbor is east, after north and south fail the bounds
check. -/
theorem c10_empty_cell_adjacent_witness :
    ∃ l1 d l2,
      [Direction.north, Direction.south, Direction.east, Direction.west]
        = l1 ++ d :: l2 ∧
      adjOk m10 ⟨0, 0⟩ d ∧
      (⟨⟨1, 0⟩, none, none⟩ : Cell) = m10.cellAt (Position.translate ⟨0, 0⟩ d 1) ∧
      ∀ d2 ∈ l1, ¬ adjOk m10 ⟨0, 0⟩ d2 :=
  (c10_empty_cell_adjacent m10 m10 ⟨0, 0⟩).2.1 ⟨⟨1, 0⟩, none, none⟩ (by decide)

end Lux
